import Mathlib

/-!
Shallow embedding of the cross-platform process/port resolution layer of
zombie-port-killer: the three platform adapters (`MacOSAdapter`,
`LinuxAdapter`, `WindowsAdapter`) and the `ProcessService` facade.

Every native tool invocation (`execSync`) is modelled by an environment
function `Env.exec : String → Option String`: the command string is built
exactly as in the source and `none` represents the call throwing
(non-zero exit, tool missing, permission denied).  JavaScript `Date`
construction and `Date.now()` are likewise environment functions, since
their results depend on the host clock and timezone.

JS numbers that can be `NaN` are modelled as `Option Int` (or `Option ℚ`
for fractional values), with `none` playing the role of `NaN`.
-/

namespace ZPK

/-! ## JavaScript string / number primitives -/

/-- Decimal value of a list of digit characters (most significant first). -/
def digitsVal (ds : List Char) : Nat :=
  ds.foldl (fun n c => 10 * n + (c.toNat - '0'.toNat)) 0

/-- Hexadecimal digit test, as used by `parseInt` with a `0x` prefix. -/
def isHexDigitChar (c : Char) : Bool :=
  c.isDigit || ('a' ≤ c && c ≤ 'f') || ('A' ≤ c && c ≤ 'F')

/-- Value of one hexadecimal digit character. -/
def hexDigitVal (c : Char) : Nat :=
  if c.isDigit then c.toNat - '0'.toNat
  else if 'a' ≤ c && c ≤ 'f' then c.toNat - 'a'.toNat + 10
  else c.toNat - 'A'.toNat + 10

/-- Value of a list of hexadecimal digit characters. -/
def hexVal (ds : List Char) : Nat :=
  ds.foldl (fun n c => 16 * n + hexDigitVal c) 0

/-- JS `parseInt(s)` (radix auto-detected): skip leading whitespace, optional
sign, then a `0x`/`0X` hexadecimal or decimal digit prefix; `none` is `NaN`
(no digits). -/
def jsParseInt (s : String) : Option Int :=
  let cs := s.data.dropWhile Char.isWhitespace
  let signed : Int × List Char :=
    match cs with
    | '+' :: r => (1, r)
    | '-' :: r => (-1, r)
    | r => (1, r)
  match signed.2 with
  | '0' :: 'x' :: r =>
    let ds := r.takeWhile isHexDigitChar
    if ds.isEmpty then none else some (signed.1 * (hexVal ds : Int))
  | '0' :: 'X' :: r =>
    let ds := r.takeWhile isHexDigitChar
    if ds.isEmpty then none else some (signed.1 * (hexVal ds : Int))
  | r =>
    let ds := r.takeWhile Char.isDigit
    if ds.isEmpty then none else some (signed.1 * (digitsVal ds : Int))

/-- JS string trimming: strip leading and trailing whitespace.
(Implemented structurally on the character list so that terms evaluate
inside the kernel.) -/
def jsTrim (s : String) : String :=
  String.mk (((s.data.dropWhile Char.isWhitespace).reverse.dropWhile
    Char.isWhitespace).reverse)

/-- JS `s.split(sep)` for a single-character separator (the only separators
the source uses: `'\n'`, `':'`, `'-'`, `','`). -/
def splitOnCharList (c : Char) : List Char → List (List Char)
  | [] => [[]]
  | x :: rest =>
    let r := splitOnCharList c rest
    if x = c then [] :: r
    else (x :: r.headD []) :: r.tail

/-- String-level wrapper for `splitOnCharList`. -/
def splitOnChar (c : Char) (s : String) : List String :=
  (splitOnCharList c s.data).map String.mk

/-- JS `s.split('\n')`. -/
def linesOf (s : String) : List String :=
  splitOnChar '\n' s

/-- JS `Number(s)` restricted to the decimal forms that can appear in the
`ps` elapsed-time fields it is applied to: trimmed-empty is `0`, an optional
sign followed by digits with an optional fractional part is its value, and
anything else is `NaN` (`none`). -/
def jsNumber (s : String) : Option ℚ :=
  let t := jsTrim s
  if t = "" then some 0
  else
    let signed : Bool × List Char :=
      match t.data with
      | '+' :: r => (false, r)
      | '-' :: r => (true, r)
      | r => (false, r)
    let intPart := signed.2.takeWhile Char.isDigit
    let mkVal : ℚ → Option ℚ := fun v => some (if signed.1 then -v else v)
    match signed.2.dropWhile Char.isDigit with
    | [] => if intPart.isEmpty then none else mkVal (digitsVal intPart : ℚ)
    | '.' :: frac =>
      let fd := frac.takeWhile Char.isDigit
      if ¬ (frac.dropWhile Char.isDigit).isEmpty then none
      else if intPart.isEmpty && fd.isEmpty then none
      else mkVal ((digitsVal intPart : ℚ) + (digitsVal fd : ℚ) / (10 : ℚ) ^ fd.length)
    | _ => none

/-- JS `x || d` on a number `x` (modelled as `Option ℚ` with `none` = `NaN`,
which is also how an `undefined` destructuring result behaves here): the
default is taken when `x` is `NaN`/`undefined` or `0`. -/
def jsOr (x : Option ℚ) (d : ℚ) : ℚ :=
  match x with
  | none => d
  | some q => if q = 0 then d else q

/-- JS template-literal rendering of a number that may be `NaN`. -/
def jsNumToString (n : Option Int) : String :=
  match n with
  | none => "NaN"
  | some k => toString k

/-- Accumulator loop for `splitWs`: collect maximal runs of non-whitespace
characters (the pending run is held reversed in `acc`). -/
def splitWsAux : List Char → List Char → List String
  | [], acc => if acc.isEmpty then [] else [String.mk acc.reverse]
  | c :: rest, acc =>
    if c.isWhitespace then
      if acc.isEmpty then splitWsAux rest []
      else String.mk acc.reverse :: splitWsAux rest []
    else splitWsAux rest (c :: acc)

/-- JS `s.split(/\s+/)` applied (as in the source) to an already trimmed
string: the maximal runs of non-whitespace characters. -/
def splitWs (s : String) : List String :=
  splitWsAux s.data []

/-- JS `Array.prototype.join(' ')`. -/
def joinSpace (l : List String) : String :=
  String.intercalate " " l

/-- Substring occurrence test on character lists. -/
def listContainsSub (pat : List Char) : List Char → Bool
  | [] => List.isPrefixOf pat []
  | c :: rest => List.isPrefixOf pat (c :: rest) || listContainsSub pat rest

/-- JS `String.prototype.includes(pat)` for a non-empty literal pattern. -/
def strContains (s pat : String) : Bool :=
  listContainsSub pat.data s.data

/-- JS lower-casing (ASCII, which covers the process names compared
here). -/
def jsToLower (s : String) : String :=
  String.mk (s.data.map Char.toLower)

/-- Match of the regex `:(\d+)$`: the trailing digit run of `s`, provided it
is non-empty and preceded by a colon. -/
def lastColonPort (s : String) : Option Nat :=
  let rev := s.data.reverse
  let ds := rev.takeWhile Char.isDigit
  if ds.isEmpty then none
  else
    match rev.dropWhile Char.isDigit with
    | ':' :: _ => some (digitsVal ds.reverse)
    | _ => none

/-- Match of the regex `^(\d+)`: the leading digit run of `s`, if non-empty. -/
def leadDigits (s : String) : Option Nat :=
  let ds := s.data.takeWhile Char.isDigit
  if ds.isEmpty then none else some (digitsVal ds)

/-- One attempt of `pid=(\d+)` at the head of the character list. -/
def pidEqAt (l : List Char) : Option Nat :=
  match l with
  | 'p' :: 'i' :: 'd' :: '=' :: rest =>
    let ds := rest.takeWhile Char.isDigit
    if ds.isEmpty then none else some (digitsVal ds)
  | _ => none

/-- First match of the regex `pid=(\d+)` in the list, scanning left to
right as the JS regex engine does. -/
def matchPidEqList : List Char → Option Nat
  | [] => none
  | c :: rest =>
    match pidEqAt (c :: rest) with
    | some n => some n
    | none => matchPidEqList rest

/-- First match of `pid=(\d+)` in a string (`s.match(/pid=(\d+)/)`). -/
def matchPidEq (s : String) : Option Nat :=
  matchPidEqList s.data

/-- One attempt of `:(\d+)\s` at the head of the character list. -/
def colonDigitsWsAt (l : List Char) : Option Nat :=
  match l with
  | ':' :: rest =>
    let ds := rest.takeWhile Char.isDigit
    if ds.isEmpty then none
    else
      match rest.dropWhile Char.isDigit with
      | c :: _ => if c.isWhitespace then some (digitsVal ds) else none
      | [] => none
  | _ => none

/-- First match of the regex `:(\d+)\s` in the list. -/
def matchColonDigitsWsList : List Char → Option Nat
  | [] => none
  | c :: rest =>
    match colonDigitsWsAt (c :: rest) with
    | some n => some n
    | none => matchColonDigitsWsList rest

/-- First match of `:(\d+)\s` in a string (`line.match(/:(\d+)\s/)`). -/
def matchColonDigitsWs (s : String) : Option Nat :=
  matchColonDigitsWsList s.data

/-- First match of the regex `key(cap)` where `cap` is `(.*)` (when
`requireNonempty = false`) or `([^\r\n]+)` (when `true`): scan for an
occurrence of `key` and capture the following characters up to a line
terminator, retrying at the next position when a non-empty capture is
required but empty. -/
def matchAfterKeyList (key : List Char) (requireNonempty : Bool) :
    List Char → Option String
  | [] => none
  | c :: rest =>
    if List.isPrefixOf key (c :: rest) then
      let cap := ((c :: rest).drop key.length).takeWhile
        (fun ch => ¬ (ch = '\n' ∨ ch = '\r'))
      if requireNonempty && cap.isEmpty then matchAfterKeyList key requireNonempty rest
      else some (String.mk cap)
    else matchAfterKeyList key requireNonempty rest

/-- String-level wrapper for `matchAfterKeyList`. -/
def matchAfterKey (key : String) (requireNonempty : Bool) (s : String) : Option String :=
  matchAfterKeyList key.data requireNonempty s.data

/-- JS `s.replace(/"/g, '')`: drop every double-quote character. -/
def stripQuotes (s : String) : String :=
  String.mk (s.data.filter (· ≠ '"'))

/-! ## Data model and environment -/

/-- The normalized Process Record (`ProcessInfo` in `src/types`).  `pid` and
`port` are JS numbers (`none` = `NaN`); the remaining fields are optional
exactly where the source may leave them unset. -/
structure ProcessInfo where
  pid : Option Int
  port : Option Int
  processName : String
  command : String
  user : Option String
  uptime : Option ℚ
  startTime : Option ℚ
  parentPid : Option Int
  parentProcessName : Option String
  workingDirectory : Option String
  serviceManager : Option String
  serviceName : Option String
deriving DecidableEq, Repr

/-- The `Partial<ProcessInfo>` accumulated by `getProcessContext`: every
field starts absent. -/
structure ProcessContext where
  uptime : Option ℚ := none
  startTime : Option ℚ := none
  parentPid : Option Int := none
  parentProcessName : Option String := none
  workingDirectory : Option String := none
  serviceManager : Option String := none
  serviceName : Option String := none
deriving DecidableEq, Repr

/-- The host environment: `exec` is `execSync` (`none` = the call threw),
`newDate`/`mkDate`/`now` are the JS `Date` string constructor, numeric
constructor (`none` = Invalid Date) and `Date.now()` (all host/timezone
dependent), and `dirname` is node's `path.dirname`. -/
structure Env where
  exec : String → Option String
  newDate : String → Option ℚ
  mkDate : Option Int → Option Int → Option Int → Option Int → Option Int →
    Option Int → Option ℚ
  now : ℚ
  dirname : String → String

/-- The `${pid}:${port}` de-duplication key used by `getAllListeningPorts`. -/
def jsKey (pid port : Option Int) : String :=
  jsNumToString pid ++ ":" ++ jsNumToString port

/-! ## MacOSAdapter (src/platform/macos.adapter.ts) -/

namespace MacOSAdapter

/-- `MacOSAdapter.parseElapsedTime`: parse `DD-HH:MM:SS`, `HH:MM:SS` or
`MM:SS` to milliseconds.  (`LinuxAdapter.parseElapsedTime` has the
identical body; see `LinuxAdapter.parseElapsedTime` below.) -/
def parseElapsedTime (etime : String) : ℚ :=
  let dhms : ℚ × ℚ × ℚ × ℚ :=
    if strContains etime "-" then
      -- Format: DD-HH:MM:SS (destructuring keeps the first two pieces)
      let pieces := splitOnChar (Char.ofNat 45) etime
      let daysPart := pieces.headD ""
      let timePart := pieces.getD 1 ""
      let days := jsOr ((jsParseInt daysPart).map (Int.cast)) 0
      let hms := (splitOnChar (Char.ofNat 58) timePart).map jsNumber
      (days, jsOr (hms.getD 0 none) 0, jsOr (hms.getD 1 none) 0, jsOr (hms.getD 2 none) 0)
    else
      let parts := splitOnChar (Char.ofNat 58) etime
      if parts.length = 3 then
        (0, jsOr ((jsParseInt (parts.getD 0 "")).map (Int.cast)) 0,
         jsOr ((jsParseInt (parts.getD 1 "")).map (Int.cast)) 0,
         jsOr ((jsParseInt (parts.getD 2 "")).map (Int.cast)) 0)
      else if parts.length = 2 then
        (0, 0, jsOr ((jsParseInt (parts.getD 0 "")).map (Int.cast)) 0,
         jsOr ((jsParseInt (parts.getD 1 "")).map (Int.cast)) 0)
      else
        (0, 0, 0, 0)
  dhms.1 * (24 * 60 * 60 * 1000) + dhms.2.1 * (60 * 60 * 1000) +
    dhms.2.2.1 * (60 * 1000) + dhms.2.2.2 * 1000

/-- `MacOSAdapter.getProcessContext`: the four independently best-effort
context queries (time, parent, cwd, launchctl), each in its own
`try`/`catch`. -/
def getProcessContext (env : Env) (pid : Option Int) : ProcessContext :=
  let ctx : ProcessContext := {}
  -- uptime (etime) and start time (lstart) in one call
  let ctx :=
    match env.exec ("ps -p " ++ jsNumToString pid ++ " -o etime=,lstart=") with
    | none => ctx
    | some out =>
      let t := (jsTrim out)
      if t = "" then ctx
      else
        let parts := splitWs t
        if 2 ≤ parts.length then
          { ctx with
            uptime := some (parseElapsedTime (parts.headD ""))
            startTime := env.newDate (joinSpace (parts.drop 1)) }
        else ctx
  -- parent PID and parent process name
  let ctx :=
    match env.exec ("ps -p " ++ jsNumToString pid ++ " -o ppid=,ppidcmd=") with
    | none => ctx
    | some out =>
      let t := (jsTrim out)
      if t = "" then ctx
      else
        let parts := splitWs t
        if 1 ≤ parts.length then
          match jsParseInt (parts.headD "") with
          | none => ctx
          | some ppid =>
            if 0 < ppid then
              if 1 < parts.length then
                { ctx with parentPid := some ppid
                           parentProcessName := some (joinSpace (parts.drop 1)) }
              else { ctx with parentPid := some ppid }
            else ctx
        else ctx
  -- working directory
  let ctx :=
    match env.exec ("ps -p " ++ jsNumToString pid ++ " -o cwd=") with
    | none => ctx
    | some out =>
      let t := (jsTrim out)
      if t = "" then ctx else { ctx with workingDirectory := some t }
  -- launchd service detection
  let ctx :=
    match env.exec ("launchctl list | grep \"^" ++ jsNumToString pid ++ "\\s\"") with
    | none => ctx
    | some out =>
      let t := (jsTrim out)
      if t = "" then ctx
      else
        let parts := splitWs t
        if 3 ≤ parts.length then
          { ctx with serviceManager := some "launchd", serviceName := some (parts.getD 2 "") }
        else if 2 ≤ parts.length then
          { ctx with serviceManager := some "launchd" }
        else ctx
  ctx

/-- `MacOSAdapter.getProcessDetails`: primary `ps` query for name, command
and user; any failure or unparseable output yields `none` (absent). -/
def getProcessDetails (env : Env) (pid : Option Int) (port : Int) : Option ProcessInfo :=
  match env.exec ("ps -p " ++ jsNumToString pid ++ " -o comm=,command=,user=") with
  | none => none
  | some psResult =>
    let t := (jsTrim psResult)
    if t = "" then none
    else
      let line := (linesOf t).headD ""
      let parts := splitWs (jsTrim line)
      if parts.length < 3 then none
      else
        let ctx := getProcessContext env pid
        some
          { pid := pid
            port := some port
            processName := parts.headD ""
            command := joinSpace ((parts.drop 1).dropLast)
            user := some (parts.getLastD "")
            uptime := ctx.uptime
            startTime := ctx.startTime
            parentPid := ctx.parentPid
            parentProcessName := ctx.parentProcessName
            workingDirectory := ctx.workingDirectory
            serviceManager := ctx.serviceManager
            serviceName := ctx.serviceName }

/-- `MacOSAdapter.findProcessByPort`: `lsof -ti :port`, then the detail
query for the parsed pid. -/
def findProcessByPort (env : Env) (port : Int) : Option ProcessInfo :=
  match env.exec ("lsof -ti :" ++ toString port) with
  | none => none
  | some pidResult =>
    let t := (jsTrim pidResult)
    if t = "" then none
    else
      match jsParseInt t with
      | none => none
      | some pid => if pid ≤ 0 then none else getProcessDetails env (some pid) port

/-- The per-line loop of `MacOSAdapter.getAllListeningPorts`, with the
`seen` de-duplication set modelled as the list of keys added so far. -/
def scanLoop (env : Env) : List String → List String → List ProcessInfo
  | [], _ => []
  | line :: rest, seen =>
    let parts := splitWs (jsTrim line)
    if parts.length < 9 then scanLoop env rest seen
    else
      let pid := jsParseInt (parts.getD 1 "")
      match lastColonPort (parts.getD 8 "") with
      | none => scanLoop env rest seen
      | some port =>
        let key := jsKey pid (some (port : Int))
        if key ∈ seen then scanLoop env rest seen
        else
          match getProcessDetails env pid (port : Int) with
          | some info => info :: scanLoop env rest (key :: seen)
          | none => scanLoop env rest (key :: seen)

/-- `MacOSAdapter.getAllListeningPorts`: parse the `lsof` dump (header line
skipped), de-duplicate `(pid, port)` via the `seen` set and query details
for each new pair. -/
def getAllListeningPorts (env : Env) : List ProcessInfo :=
  match env.exec "lsof -iTCP -sTCP:LISTEN -n -P" with
  | none => []
  | some result => scanLoop env ((linesOf (jsTrim result)).drop 1) []

/-- `MacOSAdapter.killProcess`: graceful or forceful signal, then (after
the settle delay) a `ps -p` liveness recheck whose failure is read as
death. -/
def killProcess (env : Env) (pid : Int) (force : Bool) : Bool :=
  match env.exec ("kill " ++ (if force then "-9" else "-15") ++ " " ++ toString pid) with
  | none => false
  | some _ =>
    match env.exec ("ps -p " ++ toString pid) with
    | some _ => false
    | none => true

end MacOSAdapter

/-! ## WindowsAdapter (src/platform/windows.adapter.ts) -/

namespace WindowsAdapter

/-- `WindowsAdapter.parseWindowsCreationDate`: read the fixed 14-digit
`YYYYMMDDHHmmss` prefix and build a `Date` (month 0-indexed); `none` when
the prefix is short or the `Date` is invalid. -/
def parseWindowsCreationDate (env : Env) (dateStr : String) : Option ℚ :=
  let datePart := dateStr.data.take 14
  if datePart.length ≠ 14 then none
  else
    let piece : Nat → Nat → String := fun start len => String.mk ((datePart.drop start).take len)
    let year := jsParseInt (piece 0 4)
    let month := (jsParseInt (piece 4 2)).map (· - 1)
    let day := jsParseInt (piece 6 2)
    let hour := jsParseInt (piece 8 2)
    let minute := jsParseInt (piece 10 2)
    let second := jsParseInt (piece 12 2)
    match env.mkDate year month day hour minute second with
    | some t => some t
    | none => none

/-- `WindowsAdapter.getProcessContext`: one `wmic` query for creation date,
parent pid and executable path (each field best-effort), then the
`sc query` based managed-service heuristic. -/
def getProcessContext (env : Env) (pid : Int) : ProcessContext :=
  let ctx : ProcessContext := {}
  let ctx :=
    match env.exec ("wmic process where \"ProcessId=" ++ toString pid ++
        "\" get CreationDate,ParentProcessId,ExecutablePath /format:list") with
    | none => ctx
    | some wmicResult =>
      let ctx :=
        match matchAfterKey "CreationDate=" true wmicResult with
        | none => ctx
        | some creationDateStr =>
          match parseWindowsCreationDate env (jsTrim creationDateStr) with
          | none => ctx
          | some startTime =>
            { ctx with startTime := some startTime, uptime := some (env.now - startTime) }
      let ctx :=
        match matchAfterKey "ParentProcessId=" true wmicResult with
        | none => ctx
        | some parentPidStr =>
          match jsParseInt (jsTrim parentPidStr) with
          | none => ctx
          | some parentPid =>
            if 0 < parentPid then
              let ctx := { ctx with parentPid := some parentPid }
              match env.exec ("wmic process where \"ProcessId=" ++ toString parentPid ++
                  "\" get Name /format:list") with
              | none => ctx
              | some parentWmic =>
                match matchAfterKey "Name=" true parentWmic with
                | none => ctx
                | some n => { ctx with parentProcessName := some (jsTrim n) }
            else ctx
      let ctx :=
        match matchAfterKey "ExecutablePath=" true wmicResult with
        | none => ctx
        | some p => { ctx with workingDirectory := some (env.dirname (jsTrim p)) }
      ctx
  let ctx :=
    match env.exec "sc query type= service state= all" with
    | none => ctx
    | some _ =>
      if ctx.parentPid = some 4 ∨
          (match ctx.parentProcessName with
           | some n => strContains (jsToLower n) "services"
           | none => false) = true then
        { ctx with serviceManager := some "windows-service" }
      else ctx
  ctx

/-- `WindowsAdapter.getProcessDetails`: `tasklist` CSV for the name, a
best-effort `wmic` query for the command line (falling back to the name),
then the context block.  Windows records carry no user. -/
def getProcessDetails (env : Env) (pid : Int) (port : Int) : Option ProcessInfo :=
  match env.exec ("tasklist /FI \"PID eq " ++ toString pid ++ "\" /FO CSV /NH") with
  | none => none
  | some result =>
    if result = "" ∨ strContains result "INFO: No tasks" then none
    else
      let csvLine := (linesOf (jsTrim result)).headD ""
      if csvLine = "" then none
      else
        let parts := (splitOnChar (Char.ofNat 44) csvLine).map stripQuotes
        if parts.length < 2 then none
        else
          let processName := parts.headD ""
          let command :=
            match env.exec ("wmic process where \"ProcessId=" ++ toString pid ++
                "\" get CommandLine /format:list") with
            | none => processName
            | some wmic =>
              match matchAfterKey "CommandLine=" false wmic with
              | none => processName
              | some captured =>
                if (jsTrim captured) = "" then processName else (jsTrim captured)
          let ctx := getProcessContext env pid
          some
            { pid := some pid
              port := some port
              processName := processName
              command := command
              user := none
              uptime := ctx.uptime
              startTime := ctx.startTime
              parentPid := ctx.parentPid
              parentProcessName := ctx.parentProcessName
              workingDirectory := ctx.workingDirectory
              serviceManager := ctx.serviceManager
              serviceName := ctx.serviceName }

/-- The per-line loop of `WindowsAdapter.findProcessByPort`: the first line
containing `LISTENING`, with at least 5 columns and a positive parsed pid,
settles the call (its detail result is returned even when `null`). -/
def findLoop (env : Env) (port : Int) : List String → Option ProcessInfo
  | [] => none
  | line :: rest =>
    if ¬ strContains line "LISTENING" then findLoop env port rest
    else
      let parts := splitWs (jsTrim line)
      if parts.length < 5 then findLoop env port rest
      else
        match jsParseInt (parts.getLastD "") with
        | none => findLoop env port rest
        | some pid =>
          if pid ≤ 0 then findLoop env port rest
          else getProcessDetails env pid port

/-- `WindowsAdapter.findProcessByPort`: `netstat -ano | findstr :port`
(a substring filter on the port digits), then the line loop. -/
def findProcessByPort (env : Env) (port : Int) : Option ProcessInfo :=
  match env.exec ("netstat -ano | findstr :" ++ toString port) with
  | none => none
  | some result => findLoop env port (linesOf (jsTrim result))

/-- The local-address port of a `netstat -ano` line, as the scan extracts
it: trailing `:(\d+)` of column 1.  (The find path never inspects it.) -/
def localPortOfLine (line : String) : Option Nat :=
  lastColonPort ((splitWs (jsTrim line)).getD 1 "")

/-- The per-line loop of `WindowsAdapter.getAllListeningPorts`. -/
def scanLoop (env : Env) : List String → List String → List ProcessInfo
  | [], _ => []
  | line :: rest, seen =>
    let parts := splitWs (jsTrim line)
    if parts.length < 5 then scanLoop env rest seen
    else
      match lastColonPort (parts.getD 1 "") with
      | none => scanLoop env rest seen
      | some port =>
        match jsParseInt (parts.getLastD "") with
        | none => scanLoop env rest seen
        | some pid =>
          let key := jsKey (some pid) (some (port : Int))
          if key ∈ seen then scanLoop env rest seen
          else
            match getProcessDetails env pid (port : Int) with
            | some info => info :: scanLoop env rest (key :: seen)
            | none => scanLoop env rest (key :: seen)

/-- `WindowsAdapter.getAllListeningPorts`: `netstat -ano | findstr
LISTENING`, with `(pid, port)` de-duplication via the `seen` set. -/
def getAllListeningPorts (env : Env) : List ProcessInfo :=
  match env.exec "netstat -ano | findstr LISTENING" with
  | none => []
  | some result => scanLoop env (linesOf (jsTrim result)) []

/-- `WindowsAdapter.killProcess`: `taskkill` (with `/F` when forceful),
then a `tasklist` liveness recheck; a recheck failure is read as death. -/
def killProcess (env : Env) (pid : Int) (force : Bool) : Bool :=
  match env.exec ("taskkill /PID " ++ toString pid ++ " " ++ (if force then "/F" else "")) with
  | none => false
  | some _ =>
    match env.exec ("tasklist /FI \"PID eq " ++ toString pid ++ "\"") with
    | none => true
    | some _ =>
      match env.exec ("tasklist /FI \"PID eq " ++ toString pid ++ "\" /NH") with
      | none => true
      | some result => if strContains result "INFO: No tasks" then true else false

end WindowsAdapter

/-! ## LinuxAdapter (src/platform/linux.adapter.ts)

Linux operations additionally return the trace of `execSync` command
strings they issue, in order, so that the once-per-probe claim about
`hasSSCommand` can be stated.  The result component is computed exactly as
in the source; the trace component just records each `env.exec` argument.
-/

namespace LinuxAdapter

/-- A single-quote character, for building the `ss` filter expression. -/
def sq : String := String.singleton (Char.ofNat 39)

/-- `LinuxAdapter.parseElapsedTime`: identical body to
`MacOSAdapter.parseElapsedTime`. -/
def parseElapsedTime (etime : String) : ℚ :=
  MacOSAdapter.parseElapsedTime etime

/-- `LinuxAdapter.hasSSCommand`: probe `which ss`; issued anew on every
call (the adapter keeps no state). -/
def hasSSCommand (env : Env) : Bool × List String :=
  (match env.exec "which ss" with
   | some _ => true
   | none => false,
   ["which ss"])

/-- `LinuxAdapter.getProcessDetails`: one `ps` query for name, command and
user; failure or unparseable output yields `none`. -/
def getProcessDetails (env : Env) (pid : Int) (port : Int) :
    Option ProcessInfo × List String :=
  let cmd := "ps -p " ++ toString pid ++ " -o comm=,cmd=,user="
  (match env.exec cmd with
   | none => none
   | some psResult =>
     let t := (jsTrim psResult)
     if t = "" then none
     else
       let parts := splitWs t
       if parts.length < 3 then none
       else
         some
           { pid := some pid
             port := some port
             processName := parts.headD ""
             command := joinSpace ((parts.drop 1).dropLast)
             user := some (parts.getLastD "")
             uptime := none
             startTime := none
             parentPid := none
             parentProcessName := none
             workingDirectory := none
             serviceManager := none
             serviceName := none },
   [cmd])

/-- `LinuxAdapter.findWithSS`: the first `pid=(\d+)` match anywhere in the
`ss` output settles the pid; the port is never compared against the
output. -/
def findWithSS (env : Env) (port : Int) : Option ProcessInfo × List String :=
  let cmd := "ss -lptn " ++ sq ++ "sport = :" ++ toString port ++ sq
  match env.exec cmd with
  | none => (none, [cmd])
  | some result =>
    match matchPidEq result with
    | none => (none, [cmd])
    | some n =>
      let pid : Int := (n : Int)
      if pid ≤ 0 then (none, [cmd])
      else
        let d := getProcessDetails env pid port
        (d.1, cmd :: d.2)

/-- The per-line loop of `LinuxAdapter.findWithNetstat`: the first line
with at least 7 columns and a positive leading pid in column 6 settles the
call (its detail result is returned even when `null`). -/
def findNetstatLoop (env : Env) (port : Int) :
    List String → Option ProcessInfo × List String
  | [] => (none, [])
  | line :: rest =>
    let parts := splitWs (jsTrim line)
    if parts.length < 7 then findNetstatLoop env port rest
    else
      match leadDigits (parts.getD 6 "") with
      | none => findNetstatLoop env port rest
      | some n =>
        let pid : Int := (n : Int)
        if pid ≤ 0 then findNetstatLoop env port rest
        else getProcessDetails env pid port

/-- `LinuxAdapter.findWithNetstat`: `netstat -ltnp | grep :port` (a
substring filter on the port digits), then the line loop.  Connection
state is never re-checked, and the grepped port may sit anywhere in the
line. -/
def findWithNetstat (env : Env) (port : Int) : Option ProcessInfo × List String :=
  let cmd := "netstat -ltnp 2>/dev/null | grep :" ++ toString port
  match env.exec cmd with
  | none => (none, [cmd])
  | some result =>
    let r := findNetstatLoop env port (linesOf (jsTrim result))
    (r.1, cmd :: r.2)

/-- The per-line loop of `LinuxAdapter.getAllWithSS`. -/
def ssScanLoop (env : Env) : List String → List String → List ProcessInfo × List String
  | [], _ => ([], [])
  | line :: rest, seen =>
    match matchPidEq line, matchColonDigitsWs line with
    | some pidN, some portN =>
      let pid : Int := (pidN : Int)
      let port : Int := (portN : Int)
      let key := jsKey (some pid) (some port)
      if key ∈ seen then ssScanLoop env rest seen
      else
        let d := getProcessDetails env pid port
        let r := ssScanLoop env rest (key :: seen)
        (match d.1 with
         | some info => (info :: r.1, d.2 ++ r.2)
         | none => (r.1, d.2 ++ r.2))
    | _, _ => ssScanLoop env rest seen

/-- `LinuxAdapter.getAllWithSS`: parse the `ss -lptn` dump (header line
skipped), de-duplicating `(pid, port)` via the `seen` set. -/
def getAllWithSS (env : Env) : List ProcessInfo × List String :=
  match env.exec "ss -lptn" with
  | none => ([], ["ss -lptn"])
  | some result =>
    let r := ssScanLoop env ((linesOf (jsTrim result)).drop 1) []
    (r.1, "ss -lptn" :: r.2)

/-- The per-line loop of `LinuxAdapter.getAllWithNetstat`. -/
def netstatScanLoop (env : Env) :
    List String → List String → List ProcessInfo × List String
  | [], _ => ([], [])
  | line :: rest, seen =>
    let parts := splitWs (jsTrim line)
    if parts.length < 7 then netstatScanLoop env rest seen
    else
      match lastColonPort (parts.getD 3 "") with
      | none => netstatScanLoop env rest seen
      | some portN =>
        match leadDigits (parts.getD 6 "") with
        | none => netstatScanLoop env rest seen
        | some pidN =>
          let pid : Int := (pidN : Int)
          let port : Int := (portN : Int)
          let key := jsKey (some pid) (some port)
          if key ∈ seen then netstatScanLoop env rest seen
          else
            let d := getProcessDetails env pid port
            let r := netstatScanLoop env rest (key :: seen)
            (match d.1 with
             | some info => (info :: r.1, d.2 ++ r.2)
             | none => (r.1, d.2 ++ r.2))

/-- `LinuxAdapter.getAllWithNetstat`: parse the `netstat -ltnp` dump (two
header lines skipped), de-duplicating via the `seen` set. -/
def getAllWithNetstat (env : Env) : List ProcessInfo × List String :=
  let cmd := "netstat -ltnp 2>/dev/null"
  match env.exec cmd with
  | none => ([], [cmd])
  | some result =>
    let r := netstatScanLoop env ((linesOf (jsTrim result)).drop 2) []
    (r.1, cmd :: r.2)

/-- `LinuxAdapter.findProcessByPort`: probe for `ss` (on every call), then
dispatch to the `ss` or `netstat` strategy. -/
def findProcessByPort (env : Env) (port : Int) : Option ProcessInfo × List String :=
  let probe := hasSSCommand env
  let r := if probe.1 then findWithSS env port else findWithNetstat env port
  (r.1, probe.2 ++ r.2)

/-- `LinuxAdapter.getAllListeningPorts`: probe for `ss` (on every call),
then dispatch to the `ss` or `netstat` strategy. -/
def getAllListeningPorts (env : Env) : List ProcessInfo × List String :=
  let probe := hasSSCommand env
  let r := if probe.1 then getAllWithSS env else getAllWithNetstat env
  (r.1, probe.2 ++ r.2)

/-- `LinuxAdapter.killProcess`: same body as `MacOSAdapter.killProcess`,
with the issued commands traced. -/
def killProcess (env : Env) (pid : Int) (force : Bool) : Bool × List String :=
  let killCmd := "kill " ++ (if force then "-9" else "-15") ++ " " ++ toString pid
  let psCmd := "ps -p " ++ toString pid
  match env.exec killCmd with
  | none => (false, [killCmd])
  | some _ =>
    match env.exec psCmd with
    | some _ => (false, [killCmd, psCmd])
    | none => (true, [killCmd, psCmd])

end LinuxAdapter

/-! ## ProcessService (src/services/process.service.ts) -/

namespace ProcessService

/-- JS numbers reaching `validatePort`: `none` is `NaN`, otherwise an
arbitrary (possibly non-integer) finite value. -/
abbrev JSNum := Option ℚ

/-- `ProcessService.validatePort`: throws (returns the message) when the
port is falsy or `NaN`, or outside `[1, 65535]`; `none` means no throw. -/
def validatePort (port : JSNum) : Option String :=
  match port with
  | none => some "Port must be a number"
  | some q =>
    if q = 0 then some "Port must be a number"
    else if q < 1 ∨ 65535 < q then some "Port must be between 1 and 65535"
    else none

/-- `ProcessService.findByPort`: validate, then delegate to the platform
adapter.  The adapter is supplied as its (result, issued native commands)
behaviour; a thrown validation error reaches the caller with no native
command issued. -/
def findByPort (port : JSNum) (adapter : Option ProcessInfo × List String) :
    Except String (Option ProcessInfo) × List String :=
  match validatePort port with
  | some e => (Except.error e, [])
  | none => (Except.ok adapter.1, adapter.2)

end ProcessService

/-! ## Helper lemmas about the detail queries -/

/-- A successful macOS detail query copies its pid and port arguments into
the record unchanged. -/
theorem mac_details_pid_port (env : Env) (pid : Option Int) (port : Int)
    (r : ProcessInfo) (h : MacOSAdapter.getProcessDetails env pid port = some r) :
    r.pid = pid ∧ r.port = some port := by
  cases hx : env.exec ("ps -p " ++ jsNumToString pid ++ " -o comm=,command=,user=") with
  | none =>
    simp only [MacOSAdapter.getProcessDetails, hx] at h
    cases h
  | some psResult =>
    simp only [MacOSAdapter.getProcessDetails, hx] at h
    split at h
    · cases h
    · split at h
      · cases h
      · injection h with h2
        subst h2
        exact ⟨rfl, rfl⟩

/-- A successful Windows detail query copies its pid and port arguments
into the record unchanged. -/
theorem win_details_pid_port (env : Env) (pid port : Int)
    (r : ProcessInfo) (h : WindowsAdapter.getProcessDetails env pid port = some r) :
    r.pid = some pid ∧ r.port = some port := by
  cases hx : env.exec ("tasklist /FI \"PID eq " ++ toString pid ++ "\" /FO CSV /NH") with
  | none =>
    simp only [WindowsAdapter.getProcessDetails, hx] at h
    cases h
  | some result =>
    simp only [WindowsAdapter.getProcessDetails, hx] at h
    split at h
    · cases h
    · split at h
      · cases h
      · split at h
        · cases h
        · injection h with h2
          subst h2
          exact ⟨rfl, rfl⟩

/-- A successful Linux detail query copies its pid and port arguments into
the record unchanged. -/
theorem linux_details_pid_port (env : Env) (pid port : Int)
    (r : ProcessInfo) (h : (LinuxAdapter.getProcessDetails env pid port).1 = some r) :
    r.pid = some pid ∧ r.port = some port := by
  cases hx : env.exec ("ps -p " ++ toString pid ++ " -o comm=,cmd=,user=") with
  | none =>
    simp only [LinuxAdapter.getProcessDetails, hx] at h
    cases h
  | some psResult =>
    simp only [LinuxAdapter.getProcessDetails, hx] at h
    split at h
    · cases h
    · split at h
      · cases h
      · injection h with h2
        subst h2
        exact ⟨rfl, rfl⟩

/-- When all four context queries for a pid error, the macOS context is
empty. -/
theorem mac_context_empty (env : Env) (pid : Option Int)
    (h1 : env.exec ("ps -p " ++ jsNumToString pid ++ " -o etime=,lstart=") = none)
    (h2 : env.exec ("ps -p " ++ jsNumToString pid ++ " -o ppid=,ppidcmd=") = none)
    (h3 : env.exec ("ps -p " ++ jsNumToString pid ++ " -o cwd=") = none)
    (h4 : env.exec ("launchctl list | grep \"^" ++ jsNumToString pid ++ "\\s\"") = none) :
    MacOSAdapter.getProcessContext env pid = {} := by
  simp only [MacOSAdapter.getProcessContext, h1, h2, h3, h4]

/-! ## Claim C9: elapsed-time parsing -/

/-- C9: elapsed-time parsing maps `"2-10:30:45"` to 210645000 ms,
`"10:30:45"` to 37845000 ms and `"30:45"` to 1845000 ms, accepting the
`DD-HH:MM:SS`, `HH:MM:SS` and `MM:SS` field counts, in both the macOS and
the Linux adapter. -/
theorem claim_C9 :
    MacOSAdapter.parseElapsedTime "2-10:30:45" = 210645000 ∧
    MacOSAdapter.parseElapsedTime "10:30:45" = 37845000 ∧
    MacOSAdapter.parseElapsedTime "30:45" = 1845000 ∧
    LinuxAdapter.parseElapsedTime "2-10:30:45" = 210645000 ∧
    LinuxAdapter.parseElapsedTime "10:30:45" = 37845000 ∧
    LinuxAdapter.parseElapsedTime "30:45" = 1845000 := by
  have e1 : MacOSAdapter.parseElapsedTime "2-10:30:45" =
      ((2 : ℤ) : ℚ) * (24 * 60 * 60 * 1000) + ((10 : ℕ) : ℚ) * (60 * 60 * 1000) +
        ((30 : ℕ) : ℚ) * (60 * 1000) + ((45 : ℕ) : ℚ) * 1000 := rfl
  have e2 : MacOSAdapter.parseElapsedTime "10:30:45" =
      (0 : ℚ) * (24 * 60 * 60 * 1000) + ((10 : ℤ) : ℚ) * (60 * 60 * 1000) +
        ((30 : ℤ) : ℚ) * (60 * 1000) + ((45 : ℤ) : ℚ) * 1000 := rfl
  have e3 : MacOSAdapter.parseElapsedTime "30:45" =
      (0 : ℚ) * (24 * 60 * 60 * 1000) + (0 : ℚ) * (60 * 60 * 1000) +
        ((30 : ℤ) : ℚ) * (60 * 1000) + ((45 : ℤ) : ℚ) * 1000 := rfl
  refine ⟨?_, ?_, ?_, ?_, ?_, ?_⟩ <;>
    simp only [LinuxAdapter.parseElapsedTime, e1, e2, e3] <;> norm_num

/-! ## Claim C3: liveness recheck errors after a sent graceful signal -/

/-- C3: when the graceful (`forceful = false`) termination signal is sent
successfully and the subsequent liveness recheck itself errors, both the
macOS and the Windows `killProcess` return `true`: inability to query
liveness after a sent signal is treated as process death. -/
theorem claim_C3 (env : Env) (pid : Int)
    (hkillMac : ∃ s, env.exec ("kill -15 " ++ toString pid) = some s)
    (hpsMac : env.exec ("ps -p " ++ toString pid) = none)
    (hkillWin : ∃ s, env.exec ("taskkill /PID " ++ toString pid ++ " ") = some s)
    (htasklistWin : env.exec ("tasklist /FI \"PID eq " ++ toString pid ++ "\"") = none) :
    MacOSAdapter.killProcess env pid false = true ∧
    WindowsAdapter.killProcess env pid false = true := by
  obtain ⟨s1, h1⟩ := hkillMac
  obtain ⟨s2, h2⟩ := hkillWin
  constructor
  · unfold MacOSAdapter.killProcess
    rw [show ("kill " ++ (if false then "-9" else "-15") ++ " " ++ toString pid) =
      "kill -15 " ++ toString pid from rfl, h1, hpsMac]
  · unfold WindowsAdapter.killProcess
    rw [show ("taskkill /PID " ++ toString pid ++ " " ++ (if false then "/F" else "")) =
      "taskkill /PID " ++ toString pid ++ " " from by simp, h2, htasklistWin]

/-- Environment for the C3 witness: the signal commands succeed and every
liveness query errors. -/
def envC3 : Env :=
  { exec := fun c =>
      if c = "kill -15 42" ∨ c = "taskkill /PID 42 " then some "" else none
    newDate := fun _ => none
    mkDate := fun _ _ _ _ _ _ => none
    now := 0
    dirname := fun s => s }

/-- C3 witness: at pid 42 in `envC3`, both kill paths report death. -/
theorem claim_C3_witness :
    MacOSAdapter.killProcess envC3 42 false = true ∧
    WindowsAdapter.killProcess envC3 42 false = true :=
  claim_C3 envC3 42 ⟨"", by decide⟩ (by decide) ⟨"", by decide⟩ (by decide)

/-! ## Claim C4: already-dead target -/

/-- Environment for the C4 counterexample: every native call fails, as it
does for a termination signal aimed at a pid that no longer exists. -/
def envC4 : Env :=
  { exec := fun _ => none
    newDate := fun _ => none
    mkDate := fun _ _ _ _ _ _ => none
    now := 0
    dirname := fun s => s }

/-- C4 counterexample: when the termination-signal call fails (the
already-dead case), `killProcess` returns `false` on all three platforms,
not `true` as the claim states. -/
theorem claim_C4_counterexample :
    envC4.exec "kill -15 42" = none ∧
    MacOSAdapter.killProcess envC4 42 false = false ∧
    (LinuxAdapter.killProcess envC4 42 false).1 = false ∧
    WindowsAdapter.killProcess envC4 42 false = false := by
  refine ⟨rfl, by decide, by decide, by decide⟩

/-- C4 amended: `killProcess` never throws for an already-dead process,
but reports it as failure: whenever the termination-signal call itself
fails, the result is `false` (for every pid and signal choice, on all
three platforms). -/
theorem claim_C4 (env : Env) (pid : Int) (force : Bool)
    (hmac : env.exec ("kill " ++ (if force then "-9" else "-15") ++ " " ++ toString pid) = none)
    (hwin : env.exec ("taskkill /PID " ++ toString pid ++ " " ++
      (if force then "/F" else "")) = none) :
    MacOSAdapter.killProcess env pid force = false ∧
    (LinuxAdapter.killProcess env pid force).1 = false ∧
    WindowsAdapter.killProcess env pid force = false := by
  refine ⟨?_, ?_, ?_⟩
  · simp only [MacOSAdapter.killProcess, hmac]
  · simp only [LinuxAdapter.killProcess, hmac]
  · simp only [WindowsAdapter.killProcess, hwin]

/-- C4 witness: the amended theorem applied at pid 42 in `envC4`. -/
theorem claim_C4_witness :
    MacOSAdapter.killProcess envC4 42 false = false ∧
    (LinuxAdapter.killProcess envC4 42 false).1 = false ∧
    WindowsAdapter.killProcess envC4 42 false = false :=
  claim_C4 envC4 42 false rfl rfl

/-! ## Claim C5: port validation -/

/-- The JS number `80.5`, as the reduced rational `161/2`. -/
def q805 : ℚ := ⟨161, 2, by norm_num, by norm_num⟩

/-- C5 counterexample: `80.5` is a finite non-integer inside `(1, 65535)`
(denominator 2, not 1), yet `validatePort` accepts it and `findByPort`
proceeds to invoke the adapter rather than throwing first. -/
theorem claim_C5_counterexample :
    q805.den ≠ 1 ∧
    ProcessService.validatePort (some q805) = none ∧
    (ProcessService.findByPort (some q805)
      (none, ["lsof -ti :80.5"])).1 = Except.ok none ∧
    (ProcessService.findByPort (some q805)
      (none, ["lsof -ti :80.5"])).2 = ["lsof -ti :80.5"] := by
  refine ⟨by decide, rfl, rfl, rfl⟩

/-- C5 amended: `findByPort` throws a descriptive validation error, before
invoking any native tool, exactly for `NaN`, `0` and finite values outside
`[1, 65535]`; every value inside `[1, 65535]` other than the integer `0`
passes — in particular every integer port in that range passes, but so do
non-integer values such as `80.5` (the integrality part of the claim does
not hold). -/
theorem claim_C5 :
    (ProcessService.validatePort none = some "Port must be a number") ∧
    (ProcessService.validatePort (some 0) = some "Port must be a number") ∧
    (∀ q : ℚ, q ≠ 0 → (q < 1 ∨ 65535 < q) →
      ProcessService.validatePort (some q) = some "Port must be between 1 and 65535") ∧
    (∀ q : ℚ, 1 ≤ q → q ≤ 65535 → ProcessService.validatePort (some q) = none) ∧
    (∀ n : ℤ, 1 ≤ n → n ≤ 65535 →
      ProcessService.validatePort (some (n : ℚ)) = none) ∧
    (∀ p adapter, ProcessService.validatePort p ≠ none →
      (ProcessService.findByPort p adapter).2 = [] ∧
      ∃ e, (ProcessService.findByPort p adapter).1 = Except.error e ∧
        ProcessService.validatePort p = some e) := by
  refine ⟨rfl, by decide, ?_, ?_, ?_, ?_⟩
  · intro q hq hrange
    show (if q = 0 then some "Port must be a number"
      else if q < 1 ∨ 65535 < q then some "Port must be between 1 and 65535"
      else none) = some "Port must be between 1 and 65535"
    rw [if_neg hq, if_pos hrange]
  · intro q h1 h2
    have hq : q ≠ 0 := by intro h; rw [h] at h1; norm_num at h1
    show (if q = 0 then some "Port must be a number"
      else if q < 1 ∨ 65535 < q then some "Port must be between 1 and 65535"
      else none) = none
    rw [if_neg hq, if_neg (by push_neg; exact ⟨by linarith, by linarith⟩)]
  · intro n h1 h2
    have hq : ((n : ℚ)) ≠ 0 := by
      simp only [ne_eq, Int.cast_eq_zero]
      omega
    show (if (n : ℚ) = 0 then some "Port must be a number"
      else if (n : ℚ) < 1 ∨ 65535 < (n : ℚ) then some "Port must be between 1 and 65535"
      else none) = none
    rw [if_neg hq, if_neg ?_]
    push_neg
    constructor
    · exact_mod_cast h1
    · exact_mod_cast h2
  · intro p adapter hp
    cases hv : ProcessService.validatePort p with
    | none => exact absurd hv hp
    | some e =>
      refine ⟨?_, e, ?_, rfl⟩ <;> simp only [ProcessService.findByPort, hv]

/-- C5 witness: the amended theorem applied at the in-range integer port
3000, the out-of-range value 70000, and an invalid (`NaN`) `findByPort`
call that issues no native command. -/
theorem claim_C5_witness :
    ProcessService.validatePort (some ((3000 : ℤ) : ℚ)) = none ∧
    ProcessService.validatePort (some (70000 : ℚ)) =
      some "Port must be between 1 and 65535" ∧
    (ProcessService.findByPort none (none, ["lsof -ti :NaN"])).2 = [] :=
  ⟨claim_C5.2.2.2.2.1 3000 (by norm_num) (by norm_num),
   claim_C5.2.2.1 70000 (by norm_num) (Or.inr (by norm_num)),
   (claim_C5.2.2.2.2.2 none (none, ["lsof -ti :NaN"]) (by decide)).1⟩

/-! ## Claim C2: enrichment failures -/

/-- Environment for the C2 counterexample: the primary port lookup finds
pid 123, and every per-pid call — including the `ps` query for
name/command/user — fails. -/
def envC2 : Env :=
  { exec := fun c => if c = "lsof -ti :3000" then some "123" else none
    newDate := fun _ => none
    mkDate := fun _ _ _ _ _ _ => none
    now := 0
    dirname := fun s => s }

/-- C2 counterexample: with the primary port-lookup succeeding (pid 123)
and all five per-pid calls failing — including the name/command/user
process-table query — `findProcessByPort` returns absent, not a populated
record as the claim states. -/
theorem claim_C2_counterexample :
    envC2.exec "lsof -ti :3000" = some "123" ∧
    envC2.exec "ps -p 123 -o comm=,command=,user=" = none ∧
    envC2.exec "ps -p 123 -o etime=,lstart=" = none ∧
    envC2.exec "ps -p 123 -o ppid=,ppidcmd=" = none ∧
    envC2.exec "ps -p 123 -o cwd=" = none ∧
    envC2.exec "launchctl list | grep \"^123\\s\"" = none ∧
    MacOSAdapter.findProcessByPort envC2 3000 = none := by
  refine ⟨rfl, rfl, rfl, rfl, rfl, rfl, rfl⟩

/-- C2 amended: when the primary port lookup and the name/command/user
process-table query both succeed but the four secondary context queries
(time, parent, working directory, service registry) all fail, macOS
`findProcessByPort` still returns a record containing exactly
pid, port, processName, command and user, with every other field absent;
no context-query failure affects any other query or the overall lookup.
(The name/command/user query is not best-effort: its failure makes the
whole lookup absent — see the counterexample.) -/
theorem claim_C2 (env : Env) (port pid : Int) (out psOut : String)
    (h1 : env.exec ("lsof -ti :" ++ toString port) = some out)
    (h2 : jsParseInt (jsTrim out) = some pid)
    (h3 : 0 < pid)
    (h4 : env.exec ("ps -p " ++ toString pid ++ " -o comm=,command=,user=") = some psOut)
    (h5 : 3 ≤ (splitWs (jsTrim ((linesOf (jsTrim psOut)).headD ""))).length)
    (h6 : env.exec ("ps -p " ++ toString pid ++ " -o etime=,lstart=") = none)
    (h7 : env.exec ("ps -p " ++ toString pid ++ " -o ppid=,ppidcmd=") = none)
    (h8 : env.exec ("ps -p " ++ toString pid ++ " -o cwd=") = none)
    (h9 : env.exec ("launchctl list | grep \"^" ++ toString pid ++ "\\s\"") = none) :
    MacOSAdapter.findProcessByPort env port = some
      { pid := some pid
        port := some port
        processName := (splitWs (jsTrim ((linesOf (jsTrim psOut)).headD ""))).headD ""
        command := joinSpace
          (((splitWs (jsTrim ((linesOf (jsTrim psOut)).headD ""))).drop 1).dropLast)
        user := some ((splitWs (jsTrim ((linesOf (jsTrim psOut)).headD ""))).getLastD "")
        uptime := none
        startTime := none
        parentPid := none
        parentProcessName := none
        workingDirectory := none
        serviceManager := none
        serviceName := none } := by
  have hctx : MacOSAdapter.getProcessContext env (some pid) = {} :=
    mac_context_empty env (some pid) h6 h7 h8 h9
  simp only [MacOSAdapter.findProcessByPort, h1]
  split
  · next heq =>
    rw [heq] at h2
    rw [show jsParseInt "" = none from rfl] at h2
    cases h2
  · simp only [h2]
    rw [if_neg (by omega)]
    simp only [MacOSAdapter.getProcessDetails, jsNumToString, h4]
    split
    · next heq =>
      rw [heq] at h5
      exact absurd h5 (by decide)
    · split
      · next hlt => omega
      · rw [hctx]

/-- Environment for the C2 witness: the primary lookup and the
name/command/user query succeed, every context query fails. -/
def envC2w : Env :=
  { exec := fun c =>
      if c = "lsof -ti :3000" then some "123"
      else if c = "ps -p 123 -o comm=,command=,user=" then some "node /usr/bin/node root"
      else none
    newDate := fun _ => none
    mkDate := fun _ _ _ _ _ _ => none
    now := 0
    dirname := fun s => s }

/-- C2 witness: the amended theorem at port 3000 / pid 123 in `envC2w`. -/
theorem claim_C2_witness :
    MacOSAdapter.findProcessByPort envC2w 3000 = some
      { pid := some 123
        port := some 3000
        processName := "node"
        command := "/usr/bin/node"
        user := some "root"
        uptime := none
        startTime := none
        parentPid := none
        parentProcessName := none
        workingDirectory := none
        serviceManager := none
        serviceName := none } :=
  claim_C2 envC2w 3000 123 "123" "node /usr/bin/node root" rfl rfl (by omega) rfl
    (by decide) rfl rfl rfl rfl

/-! ## Claim C1: find-by-port line selection -/

/-- Any record produced by the Windows find loop comes from a line that
contains `LISTENING`, has at least five columns and a positive parsed pid
in its last column; the record is that pid's detail-query result. -/
theorem win_findLoop_sound (env : Env) (port : Int) :
    ∀ lines r, WindowsAdapter.findLoop env port lines = some r →
      ∃ line ∈ lines, strContains line "LISTENING" = true ∧
        ∃ pid, jsParseInt ((splitWs (jsTrim line)).getLastD "") = some pid ∧ 0 < pid ∧
          WindowsAdapter.getProcessDetails env pid port = some r := by
  intro lines
  induction lines with
  | nil =>
    intro r h
    simp only [WindowsAdapter.findLoop] at h
    cases h
  | cons line rest ih =>
    intro r h
    simp only [WindowsAdapter.findLoop] at h
    split at h
    · obtain ⟨l, hl, hrest⟩ := ih r h
      exact ⟨l, List.mem_cons_of_mem _ hl, hrest⟩
    · next hlisten =>
      split at h
      · obtain ⟨l, hl, hrest⟩ := ih r h
        exact ⟨l, List.mem_cons_of_mem _ hl, hrest⟩
      · split at h
        · obtain ⟨l, hl, hrest⟩ := ih r h
          exact ⟨l, List.mem_cons_of_mem _ hl, hrest⟩
        · next pid hparse =>
          split at h
          · obtain ⟨l, hl, hrest⟩ := ih r h
            exact ⟨l, List.mem_cons_of_mem _ hl, hrest⟩
          · next hpos =>
            exact ⟨line, List.mem_cons_self _ _,
              by simpa using hlisten, pid, hparse, by omega, h⟩

/-- C1 amended: on Windows, `findProcessByPort` returns absent when the
connection-table query fails, and any returned record is the detail-query
result of a positive pid taken from an output line containing `LISTENING`
(non-LISTENING lines are skipped); however the netstat output is filtered
only by the substring `:port`, and the local-address port of the chosen
line is never compared against the requested port, so a LISTENING line
whose text merely contains `:port` (e.g. local port 30001 for request
3000) can supply the record — see the counterexample. -/
theorem claim_C1 (env : Env) (port : Int) (r : ProcessInfo)
    (h : WindowsAdapter.findProcessByPort env port = some r) :
    ∃ out, env.exec ("netstat -ano | findstr :" ++ toString port) = some out ∧
      ∃ line ∈ linesOf (jsTrim out), strContains line "LISTENING" = true ∧
        ∃ pid, jsParseInt ((splitWs (jsTrim line)).getLastD "") = some pid ∧ 0 < pid ∧
          WindowsAdapter.getProcessDetails env pid port = some r ∧
          r.pid = some pid ∧ r.port = some port := by
  cases hx : env.exec ("netstat -ano | findstr :" ++ toString port) with
  | none =>
    simp only [WindowsAdapter.findProcessByPort, hx] at h
    cases h
  | some out =>
    simp only [WindowsAdapter.findProcessByPort, hx] at h
    obtain ⟨line, hline, hcontains, pid, hparse, hpos, hdet⟩ :=
      win_findLoop_sound env port _ r h
    obtain ⟨hp1, hp2⟩ := win_details_pid_port env pid port r hdet
    exact ⟨out, rfl, line, hline, hcontains, pid, hparse, hpos, hdet, hp1, hp2⟩

/-- The single `netstat` output line of the C1 counterexample: a LISTENING
socket on local port 30001, which the substring filter `:3000` matches. -/
def netstatLineC1 : String :=
  "TCP    0.0.0.0:30001    0.0.0.0:0    LISTENING    99"

/-- Environment for the C1 counterexample: the connection table holds only
the port-30001 listener, and pid 99 resolves in the process list. -/
def envC1 : Env :=
  { exec := fun c =>
      if c = "netstat -ano | findstr :3000" then some netstatLineC1
      else if c = "tasklist /FI \"PID eq 99\" /FO CSV /NH" then
        some "\"evil.exe\",\"99\",\"Console\",\"1\",\"1000 K\""
      else none
    newDate := fun _ => none
    mkDate := fun _ _ _ _ _ _ => none
    now := 0
    dirname := fun s => s }

/-- The record the C1 counterexample run returns. -/
def recC1 : ProcessInfo :=
  { pid := some 99
    port := some 3000
    processName := "evil.exe"
    command := "evil.exe"
    user := none
    uptime := none
    startTime := none
    parentPid := none
    parentProcessName := none
    workingDirectory := none
    serviceManager := none
    serviceName := none }

/-- C1 counterexample: querying port 3000 returns the record of pid 99,
although no line of the connection-table output has local-address port
3000 (the only line listens on 30001): a line whose local-address port is
not the requested port supplied the returned record. -/
theorem claim_C1_counterexample :
    envC1.exec "netstat -ano | findstr :3000" = some netstatLineC1 ∧
    (∀ line ∈ linesOf (jsTrim netstatLineC1),
      WindowsAdapter.localPortOfLine line ≠ some 3000) ∧
    WindowsAdapter.findProcessByPort envC1 3000 = some recC1 := by
  refine ⟨rfl, by decide, rfl⟩

/-- C1 witness: the amended theorem applied to the `envC1` run. -/
theorem claim_C1_witness :
    ∃ out, envC1.exec ("netstat -ano | findstr :" ++ toString (3000 : Int)) = some out ∧
      ∃ line ∈ linesOf (jsTrim out), strContains line "LISTENING" = true ∧
        ∃ pid, jsParseInt ((splitWs (jsTrim line)).getLastD "") = some pid ∧ 0 < pid ∧
          WindowsAdapter.getProcessDetails envC1 pid 3000 = some recC1 ∧
          recC1.pid = some pid ∧ recC1.port = some (3000 : Int) :=
  claim_C1 envC1 3000 recC1 rfl

/-! ## Scan-loop lemmas (de-duplication and detail sourcing) -/

/-- Every record emitted by the macOS scan loop has a de-duplication key
that is not in the `seen` set the loop started from. -/
theorem mac_scanLoop_key_fresh (env : Env) :
    ∀ lines seen r, r ∈ MacOSAdapter.scanLoop env lines seen →
      jsKey r.pid r.port ∉ seen := by
  intro lines
  induction lines with
  | nil =>
    intro seen r h
    simp only [MacOSAdapter.scanLoop] at h
    cases h
  | cons line rest ih =>
    intro seen r h
    simp only [MacOSAdapter.scanLoop] at h
    split at h
    · exact ih seen r h
    · split at h
      · exact ih seen r h
      · next port hport =>
        split at h
        · exact ih seen r h
        · next hkey =>
          split at h
          · next info hdet =>
            rcases List.mem_cons.mp h with hinfo | htail
            · subst hinfo
              obtain ⟨hp1, hp2⟩ := mac_details_pid_port env _ _ _ hdet
              rw [hp1, hp2]
              exact hkey
            · intro hmem
              exact ih _ r htail (List.mem_cons_of_mem _ hmem)
          · intro hmem
            exact ih _ r h (List.mem_cons_of_mem _ hmem)

/-- The macOS scan loop never emits two records with the same
de-duplication key. -/
theorem mac_scanLoop_pairwise (env : Env) :
    ∀ lines seen, (MacOSAdapter.scanLoop env lines seen).Pairwise
      (fun a b => jsKey a.pid a.port ≠ jsKey b.pid b.port) := by
  intro lines
  induction lines with
  | nil =>
    intro seen
    simp only [MacOSAdapter.scanLoop]
    exact List.Pairwise.nil
  | cons line rest ih =>
    intro seen
    simp only [MacOSAdapter.scanLoop]
    split
    · exact ih seen
    · split
      · exact ih seen
      · next port hport =>
        split
        · exact ih seen
        · next hkey =>
          split
          · next info hdet =>
            refine List.Pairwise.cons ?_ (ih _)
            intro b hb
            obtain ⟨hp1, hp2⟩ := mac_details_pid_port env _ _ _ hdet
            have hfresh := mac_scanLoop_key_fresh env rest _ b hb
            rw [hp1, hp2]
            intro hcontra
            exact hfresh (hcontra ▸ List.mem_cons_self _ _)
          · exact ih _

/-- Every record emitted by the macOS scan loop is the successful result
of the per-pid detail query for some parsed (pid, port) pair. -/
theorem mac_scanLoop_sourced (env : Env) :
    ∀ lines seen r, r ∈ MacOSAdapter.scanLoop env lines seen →
      ∃ pid port, MacOSAdapter.getProcessDetails env pid port = some r := by
  intro lines
  induction lines with
  | nil =>
    intro seen r h
    simp only [MacOSAdapter.scanLoop] at h
    cases h
  | cons line rest ih =>
    intro seen r h
    simp only [MacOSAdapter.scanLoop] at h
    split at h
    · exact ih seen r h
    · split at h
      · exact ih seen r h
      · split at h
        · exact ih seen r h
        · split at h
          · next info hdet =>
            rcases List.mem_cons.mp h with hinfo | htail
            · subst hinfo
              exact ⟨_, _, hdet⟩
            · exact ih _ r htail
          · exact ih _ r h

/-- Every record emitted by the Windows scan loop has a de-duplication key
that is not in the `seen` set the loop started from. -/
theorem win_scanLoop_key_fresh (env : Env) :
    ∀ lines seen r, r ∈ WindowsAdapter.scanLoop env lines seen →
      jsKey r.pid r.port ∉ seen := by
  intro lines
  induction lines with
  | nil =>
    intro seen r h
    simp only [WindowsAdapter.scanLoop] at h
    cases h
  | cons line rest ih =>
    intro seen r h
    simp only [WindowsAdapter.scanLoop] at h
    split at h
    · exact ih seen r h
    · split at h
      · exact ih seen r h
      · next port hport =>
        split at h
        · exact ih seen r h
        · next pid hpid =>
          split at h
          · exact ih seen r h
          · next hkey =>
            split at h
            · next info hdet =>
              rcases List.mem_cons.mp h with hinfo | htail
              · subst hinfo
                obtain ⟨hp1, hp2⟩ := win_details_pid_port env _ _ _ hdet
                rw [hp1, hp2]
                exact hkey
              · intro hmem
                exact ih _ r htail (List.mem_cons_of_mem _ hmem)
            · intro hmem
              exact ih _ r h (List.mem_cons_of_mem _ hmem)

/-- The Windows scan loop never emits two records with the same
de-duplication key. -/
theorem win_scanLoop_pairwise (env : Env) :
    ∀ lines seen, (WindowsAdapter.scanLoop env lines seen).Pairwise
      (fun a b => jsKey a.pid a.port ≠ jsKey b.pid b.port) := by
  intro lines
  induction lines with
  | nil =>
    intro seen
    simp only [WindowsAdapter.scanLoop]
    exact List.Pairwise.nil
  | cons line rest ih =>
    intro seen
    simp only [WindowsAdapter.scanLoop]
    split
    · exact ih seen
    · split
      · exact ih seen
      · next port hport =>
        split
        · exact ih seen
        · next pid hpid =>
          split
          · exact ih seen
          · next hkey =>
            split
            · next info hdet =>
              refine List.Pairwise.cons ?_ (ih _)
              intro b hb
              obtain ⟨hp1, hp2⟩ := win_details_pid_port env _ _ _ hdet
              have hfresh := win_scanLoop_key_fresh env rest _ b hb
              rw [hp1, hp2]
              intro hcontra
              exact hfresh (hcontra ▸ List.mem_cons_self _ _)
            · exact ih _

/-- Every record emitted by the Linux `ss` scan loop is the successful
result of the per-pid detail query for some positive parsed (pid, port)
pair. -/
theorem linux_ssScanLoop_sourced (env : Env) :
    ∀ lines seen r, r ∈ (LinuxAdapter.ssScanLoop env lines seen).1 →
      ∃ pid port, (LinuxAdapter.getProcessDetails env pid port).1 = some r := by
  intro lines
  induction lines with
  | nil =>
    intro seen r h
    simp only [LinuxAdapter.ssScanLoop] at h
    cases h
  | cons line rest ih =>
    intro seen r h
    simp only [LinuxAdapter.ssScanLoop] at h
    split at h
    · next pidN portN hpid hport =>
      split at h
      · exact ih _ r h
      · split at h
        · next info hdet =>
          rcases List.mem_cons.mp h with hinfo | htail
          · subst hinfo
            exact ⟨_, _, hdet⟩
          · exact ih _ r htail
        · exact ih _ r h
    · exact ih seen r h

/-- Any record returned by the Linux netstat find loop is the detail-query
result of a positive pid parsed from some line. -/
theorem linux_findNetstatLoop_sound (env : Env) (port : Int) :
    ∀ lines r, (LinuxAdapter.findNetstatLoop env port lines).1 = some r →
      ∃ pid, 0 < pid ∧ (LinuxAdapter.getProcessDetails env pid port).1 = some r := by
  intro lines
  induction lines with
  | nil =>
    intro r h
    simp only [LinuxAdapter.findNetstatLoop] at h
    cases h
  | cons line rest ih =>
    intro r h
    simp only [LinuxAdapter.findNetstatLoop] at h
    split at h
    · exact ih r h
    · split at h
      · exact ih r h
      · next n hn =>
        split at h
        · exact ih r h
        · next hpos =>
          exact ⟨(n : Int), by omega, h⟩

/-! ## Claim C6: scan de-duplication -/

/-- C6: for every environment (hence every sequence of raw tool-output
lines, including dual-stack duplication), neither the macOS nor the
Windows `getAllListeningPorts` ever returns two records with the same
(pid, port) pair. -/
theorem claim_C6 (env : Env) :
    (MacOSAdapter.getAllListeningPorts env).Pairwise
      (fun a b => ¬ (a.pid = b.pid ∧ a.port = b.port)) ∧
    (WindowsAdapter.getAllListeningPorts env).Pairwise
      (fun a b => ¬ (a.pid = b.pid ∧ a.port = b.port)) := by
  constructor
  · cases hx : env.exec "lsof -iTCP -sTCP:LISTEN -n -P" with
    | none =>
      simp only [MacOSAdapter.getAllListeningPorts, hx]
      exact List.Pairwise.nil
    | some result =>
      simp only [MacOSAdapter.getAllListeningPorts, hx]
      exact (mac_scanLoop_pairwise env _ _).imp
        (fun hne hand => hne (by rw [hand.1, hand.2]))
  · cases hx : env.exec "netstat -ano | findstr LISTENING" with
    | none =>
      simp only [WindowsAdapter.getAllListeningPorts, hx]
      exact List.Pairwise.nil
    | some result =>
      simp only [WindowsAdapter.getAllListeningPorts, hx]
      exact (win_scanLoop_pairwise env _ _).imp
        (fun hne hand => hne (by rw [hand.1, hand.2]))

/-- Environment for the C6 witness: both scans list the same (pid, port)
binding on two lines (IPv4 and IPv6 duplication). -/
def envC6w : Env :=
  { exec := fun c =>
      if c = "lsof -iTCP -sTCP:LISTEN -n -P" then
        some "HDR\nnode 7 root 20u IPv4 0x0 0t0 TCP *:3000\nnode 7 root 21u IPv6 0x0 0t0 TCP *:3000"
      else if c = "ps -p 7 -o comm=,command=,user=" then
        some "node /usr/local/bin/node root"
      else if c = "netstat -ano | findstr LISTENING" then
        some "TCP 0.0.0.0:8080 0.0.0.0:0 LISTENING 5\nTCP [::]:8080 [::]:0 LISTENING 5"
      else if c = "tasklist /FI \"PID eq 5\" /FO CSV /NH" then
        some "\"srv.exe\",\"5\",\"Console\",\"1\",\"1000 K\""
      else none
    newDate := fun _ => none
    mkDate := fun _ _ _ _ _ _ => none
    now := 0
    dirname := fun s => s }

/-- C6 witness: the theorem applied in `envC6w`, whose tool outputs list
each (pid, port) binding twice. -/
theorem claim_C6_witness :
    (MacOSAdapter.getAllListeningPorts envC6w).Pairwise
      (fun a b => ¬ (a.pid = b.pid ∧ a.port = b.port)) ∧
    (WindowsAdapter.getAllListeningPorts envC6w).Pairwise
      (fun a b => ¬ (a.pid = b.pid ∧ a.port = b.port)) :=
  claim_C6 envC6w

/-! ## Claim C7: pid and port positivity -/

/-- C7 amended: records returned by `findProcessByPort` (macOS and Linux)
always carry a present, strictly positive pid and the requested port; the
scans carry whatever the tool lines parse to, without a positivity check —
see the counterexample, where a scan record has port 0. -/
theorem claim_C7 (env : Env) (port : Int) (r : ProcessInfo) :
    (MacOSAdapter.findProcessByPort env port = some r →
      ∃ k, r.pid = some k ∧ 0 < k ∧ r.port = some port) ∧
    ((LinuxAdapter.findProcessByPort env port).1 = some r →
      ∃ k, r.pid = some k ∧ 0 < k ∧ r.port = some port) := by
  constructor
  · intro h
    cases hx : env.exec ("lsof -ti :" ++ toString port) with
    | none =>
      simp only [MacOSAdapter.findProcessByPort, hx] at h
      cases h
    | some out =>
      simp only [MacOSAdapter.findProcessByPort, hx] at h
      split at h
      · cases h
      · split at h
        · cases h
        · next pid hpid =>
          split at h
          · cases h
          · next hpos =>
            obtain ⟨hp1, hp2⟩ := mac_details_pid_port env _ _ _ h
            exact ⟨pid, hp1, by omega, hp2⟩
  · intro h
    simp only [LinuxAdapter.findProcessByPort] at h
    split at h
    · cases hy : env.exec ("ss -lptn " ++ LinuxAdapter.sq ++ "sport = :" ++
          toString port ++ LinuxAdapter.sq) with
      | none =>
        simp only [LinuxAdapter.findWithSS, hy] at h
        cases h
      | some result =>
        simp only [LinuxAdapter.findWithSS, hy] at h
        split at h
        · cases h
        · next n hn =>
          split at h
          · cases h
          · next hpos =>
            obtain ⟨hp1, hp2⟩ := linux_details_pid_port env _ _ _ h
            exact ⟨(n : Int), hp1, by omega, hp2⟩
    · cases hy : env.exec ("netstat -ltnp 2>/dev/null | grep :" ++ toString port) with
      | none =>
        simp only [LinuxAdapter.findWithNetstat, hy] at h
        cases h
      | some result =>
        simp only [LinuxAdapter.findWithNetstat, hy] at h
        obtain ⟨pid, hpos, hdet⟩ := linux_findNetstatLoop_sound env port _ r h
        obtain ⟨hp1, hp2⟩ := linux_details_pid_port env pid port r hdet
        exact ⟨pid, hp1, hpos, hp2⟩

/-- Environment for the C7 counterexample: the socket table reports a
listener on port 0 and the process table resolves its pid. -/
def envC7 : Env :=
  { exec := fun c =>
      if c = "lsof -iTCP -sTCP:LISTEN -n -P" then
        some "COMMAND PID USER FD TYPE DEVICE SIZE NODE NAME\nnode 7 root 20u IPv4 0x0 0t0 TCP *:0"
      else if c = "ps -p 7 -o comm=,command=,user=" then
        some "node /usr/local/bin/node root"
      else none
    newDate := fun _ => none
    mkDate := fun _ _ _ _ _ _ => none
    now := 0
    dirname := fun s => s }

/-- The record the C7 counterexample scan returns: its port is 0, not
strictly positive. -/
def recC7 : ProcessInfo :=
  { pid := some 7
    port := some 0
    processName := "node"
    command := "/usr/local/bin/node"
    user := some "root"
    uptime := none
    startTime := none
    parentPid := none
    parentProcessName := none
    workingDirectory := none
    serviceManager := none
    serviceName := none }

/-- C7 counterexample: `getAllListeningPorts` emits a record whose port is
0, because the scan never checks the parsed values for positivity. -/
theorem claim_C7_counterexample :
    MacOSAdapter.getAllListeningPorts envC7 = [recC7] ∧ recC7.port = some 0 :=
  ⟨rfl, rfl⟩

/-- Environment for the C7 witness: a successful find on port 3000. -/
def envC7w : Env :=
  { exec := fun c =>
      if c = "lsof -ti :3000" then some "77"
      else if c = "ps -p 77 -o comm=,command=,user=" then some "node /usr/bin/node root"
      else none
    newDate := fun _ => none
    mkDate := fun _ _ _ _ _ _ => none
    now := 0
    dirname := fun s => s }

/-- The record the C7 witness lookup returns. -/
def recC7w : ProcessInfo :=
  { pid := some 77
    port := some 3000
    processName := "node"
    command := "/usr/bin/node"
    user := some "root"
    uptime := none
    startTime := none
    parentPid := none
    parentProcessName := none
    workingDirectory := none
    serviceManager := none
    serviceName := none }

/-- C7 witness: the amended theorem at the concrete `envC7w` lookup. -/
theorem claim_C7_witness :
    ∃ k, recC7w.pid = some k ∧ 0 < k ∧ recC7w.port = some (3000 : Int) :=
  (claim_C7 envC7w 3000 recC7w).1 rfl

/-! ## Claim C8: ss availability probing -/

/-- Environment for the C8 counterexample: every native call fails (as
when neither `ss` nor `netstat` is installed). -/
def envC8 : Env :=
  { exec := fun _ => none
    newDate := fun _ => none
    mkDate := fun _ _ _ _ _ _ => none
    now := 0
    dirname := fun s => s }

/-- C8 counterexample: each of two successive `findProcessByPort` calls
issues its own `which ss` probe, so the two-call sequence issues two probe
commands — not at most one as the claim states. -/
theorem claim_C8_counterexample :
    (LinuxAdapter.findProcessByPort envC8 3000).2.count "which ss" = 1 ∧
    (LinuxAdapter.findProcessByPort envC8 3001).2.count "which ss" = 1 ∧
    ¬ (((LinuxAdapter.findProcessByPort envC8 3000).2 ++
        (LinuxAdapter.findProcessByPort envC8 3001).2).count "which ss" ≤ 1) := by
  refine ⟨rfl, rfl, by decide⟩

/-- C8 amended: the `which ss` probe is issued at the start of every
`findProcessByPort` and every `getAllListeningPorts` call — availability
is re-probed per call, never cached, so a sequence of n resolver calls
issues n probes. -/
theorem claim_C8 (env : Env) (port : Int) :
    (LinuxAdapter.findProcessByPort env port).2.head? = some "which ss" ∧
    (LinuxAdapter.getAllListeningPorts env).2.head? = some "which ss" := by
  constructor
  · simp only [LinuxAdapter.findProcessByPort, LinuxAdapter.hasSSCommand,
      List.singleton_append, List.cons_append, List.head?_cons]
  · simp only [LinuxAdapter.getAllListeningPorts, LinuxAdapter.hasSSCommand,
      List.singleton_append, List.cons_append, List.head?_cons]

/-- C8 witness: the amended theorem at port 3000 in `envC8`. -/
theorem claim_C8_witness :
    (LinuxAdapter.findProcessByPort envC8 3000).2.head? = some "which ss" ∧
    (LinuxAdapter.getAllListeningPorts envC8).2.head? = some "which ss" :=
  claim_C8 envC8 3000

/-! ## Claim C10: failed detail queries omit the pair -/

/-- C10: every record returned by the macOS scan and by the Linux `ss`
scan is the successful result of the per-pid detail query at its own
(pid, port); consequently a pair whose detail query fails or parses to
fewer than three fields is silently omitted, and no bare pid/port-only
record is ever emitted. -/
theorem claim_C10 (env : Env) (r : ProcessInfo) :
    (r ∈ MacOSAdapter.getAllListeningPorts env →
      ∃ port, r.port = some port ∧
        MacOSAdapter.getProcessDetails env r.pid port = some r) ∧
    (r ∈ (LinuxAdapter.getAllWithSS env).1 →
      ∃ pid port, r.pid = some pid ∧ r.port = some port ∧
        (LinuxAdapter.getProcessDetails env pid port).1 = some r) := by
  constructor
  · intro h
    cases hx : env.exec "lsof -iTCP -sTCP:LISTEN -n -P" with
    | none =>
      simp only [MacOSAdapter.getAllListeningPorts, hx] at h
      cases h
    | some result =>
      simp only [MacOSAdapter.getAllListeningPorts, hx] at h
      obtain ⟨pid, port, hdet⟩ := mac_scanLoop_sourced env _ _ r h
      obtain ⟨hp1, hp2⟩ := mac_details_pid_port env pid port r hdet
      exact ⟨port, hp2, by rw [hp1]; exact hdet⟩
  · intro h
    cases hx : env.exec "ss -lptn" with
    | none =>
      simp only [LinuxAdapter.getAllWithSS, hx] at h
      cases h
    | some result =>
      simp only [LinuxAdapter.getAllWithSS, hx] at h
      obtain ⟨pid, port, hdet⟩ := linux_ssScanLoop_sourced env _ _ r h
      obtain ⟨hp1, hp2⟩ := linux_details_pid_port env pid port r hdet
      exact ⟨pid, port, hp1, hp2, hdet⟩

/-- Environment for the C10 witness: one macOS socket line (pid 7, port
3000) and one Linux `ss` line (pid 9, port 4000), both with resolvable
process details. -/
def envC10 : Env :=
  { exec := fun c =>
      if c = "lsof -iTCP -sTCP:LISTEN -n -P" then
        some "HDR\nnode 7 root 20u IPv4 0x0 0t0 TCP *:3000"
      else if c = "ps -p 7 -o comm=,command=,user=" then
        some "node /usr/local/bin/node root"
      else if c = "ss -lptn" then
        some "HDR\nLISTEN 0 128 *:4000 *:* users:((\"node\",pid=9,fd=20))"
      else if c = "ps -p 9 -o comm=,cmd=,user=" then
        some "node /usr/bin/node root"
      else none
    newDate := fun _ => none
    mkDate := fun _ _ _ _ _ _ => none
    now := 0
    dirname := fun s => s }

/-- The record the C10 witness macOS scan returns. -/
def recC10m : ProcessInfo :=
  { pid := some 7
    port := some 3000
    processName := "node"
    command := "/usr/local/bin/node"
    user := some "root"
    uptime := none
    startTime := none
    parentPid := none
    parentProcessName := none
    workingDirectory := none
    serviceManager := none
    serviceName := none }

/-- The record the C10 witness Linux scan returns. -/
def recC10l : ProcessInfo :=
  { pid := some 9
    port := some 4000
    processName := "node"
    command := "/usr/bin/node"
    user := some "root"
    uptime := none
    startTime := none
    parentPid := none
    parentProcessName := none
    workingDirectory := none
    serviceManager := none
    serviceName := none }

/-- C10 witness: the theorem applied to the records of the concrete
`envC10` scans. -/
theorem claim_C10_witness :
    (∃ port, recC10m.port = some port ∧
      MacOSAdapter.getProcessDetails envC10 recC10m.pid port = some recC10m) ∧
    (∃ pid port, recC10l.pid = some pid ∧ recC10l.port = some port ∧
      (LinuxAdapter.getProcessDetails envC10 pid port).1 = some recC10l) :=
  ⟨(claim_C10 envC10 recC10m).1
    (by rw [show MacOSAdapter.getAllListeningPorts envC10 = [recC10m] from rfl]
        exact List.mem_singleton.mpr rfl),
   (claim_C10 envC10 recC10l).2
    (by rw [show (LinuxAdapter.getAllWithSS envC10).1 = [recC10l] from rfl]
        exact List.mem_singleton.mpr rfl)⟩

end ZPK
